import Mathlib

/-!
Verification development for the dcps repository: a shallow embedding of
the instrument drivers (RigolDP832A in dcps.py, Keithley6500 in
dcps/Keithley6500.py) and of the sweep orchestrator DCTest
(dcps/power_tests.py), together with theorems settling the specification
claims about them.

Conventions of the embedding:
- Python floats are modelled as exact rationals.  Python float division
  raises ZeroDivisionError when the divisor is exactly zero, which is
  modelled by an explicit error value.
- Methods that raise exceptions before issuing any device command are
  modelled as Except values; an error return means the exception was
  raised before any command string was produced.
- Device I/O is modelled by an explicit trace of events and by an oracle
  supplying the values that measurement queries return.
-/

namespace Dcps

/- ------------------------------------------------------------------ -/
/- RigolDP832A (src/dcps.py)                                          -/
/- ------------------------------------------------------------------ -/

/-- Number of channels of the RigolDP832A; the source sets
`self._max_chan = 3` in `__init__`. -/
def RigolDP832A.max_chan : Int := 3

/-- Embedding of `RigolDP832A._chStr`: returns the channel string in the
format `CHx`, raising `ValueError` when the channel number is outside
`[1, _max_chan]`. -/
def RigolDP832A.chStr (channel : Int) : Except String String :=
  if channel < 1 ∨ channel > RigolDP832A.max_chan then
    Except.error "Invalid channel number"
  else
    Except.ok ("CH" ++ toString channel)

/-- Embedding of `RigolDP832A._chanStr`: returns the channel string in
the format `x`, raising `ValueError` when the channel number is outside
`[1, _max_chan]`. -/
def RigolDP832A.chanStr (channel : Int) : Except String String :=
  if channel < 1 ∨ channel > RigolDP832A.max_chan then
    Except.error "Invalid channel number"
  else
    Except.ok (toString channel)

/-- The command string built by `RigolDP832A.isOutputOn` before it is
sent: the channel designator from `_chStr` is interpolated into the
query.  An error means `_chStr` raised before any device I/O. -/
def RigolDP832A.outputStateQueryCmd (channel : Int) : Except String String :=
  (RigolDP832A.chStr channel).map (fun c => ":OUTPut:STATe? " ++ c)

/-- The command string built by `RigolDP832A.setVoltage` before it is
sent, using the designator from `_chanStr`. -/
def RigolDP832A.setVoltageCmd (channel : Int) (voltage : ℚ) : Except String String :=
  (RigolDP832A.chanStr channel).map
    (fun c => ":SOURce" ++ c ++ ":VOLTage " ++ toString voltage)

/-- Outcome of the polling loop in `RigolDP832A._wait`: completion after
a number of `*OPC?` queries, an IndexError from `ret[0]` on an empty
response, or still running when the given fuel is exhausted. -/
inductive WaitOutcome
  | done (queries : Nat)
  | indexError (queries : Nat)
  | running
deriving DecidableEq

/-- Embedding of the polling loop of `RigolDP832A._wait`: starting at
response index `i`, repeatedly issue `*OPC?`; a response whose first
character is `1` ends the loop.  `fuel` bounds how many iterations are
simulated; a run that exhausts the fuel without completing is reported
as still `running`. -/
def RigolDP832A.waitLoop (responses : Nat → List Char) : Nat → Nat → WaitOutcome
  | 0, _ => WaitOutcome.running
  | fuel + 1, i =>
    match responses i with
    | [] => WaitOutcome.indexError (i + 1)
    | c :: _ =>
      if c = '1' then WaitOutcome.done (i + 1)
      else RigolDP832A.waitLoop responses fuel (i + 1)

/-- Embedding of `RigolDP832A._wait`: after writing `*OPC`, poll `*OPC?`
starting with the first response. -/
def RigolDP832A.opcWait (responses : Nat → List Char) (fuel : Nat) : WaitOutcome :=
  RigolDP832A.waitLoop responses fuel 0

/- ------------------------------------------------------------------ -/
/- Keithley6500 (src/dcps/Keithley6500.py)                            -/
/- ------------------------------------------------------------------ -/

/-- The `self._functions` dictionary of `Keithley6500.__init__`, mapping
measurement-function keys to device command tokens. -/
def Keithley6500.functions : List (String × String) :=
  [("VoltageDC", "VOLT"),
   ("VoltageAC", "VOLT:AC"),
   ("CurrentDC", "CURR"),
   ("CurrentAC", "CURR:AC"),
   ("Resistance2W", "RES"),
   ("Resistance4W", "FRES"),
   ("Diode", "DIODe"),
   ("Capacitance", "CAP"),
   ("Temperature", "TEMP"),
   ("Continuity", "CONT"),
   ("Frequency", "FREQ"),
   ("Period", "PERiod"),
   ("VoltageRatio", "VOLT:RATio")]

/-- `self._functions.get(f)`: dictionary lookup returning `none` for an
unknown key. -/
def Keithley6500.functionsGet (f : String) : Option String :=
  (Keithley6500.functions.find? (fun p => p.1 == f)).map (fun p => p.2)

/-- The allow-list of `setAutoZero`: command tokens of the functions for
which AutoZero may be changed. -/
def Keithley6500.allowedAutoZero : List String :=
  ["VOLT", "CURR", "RES", "FRES", "DIODe", "TEMP", "VOLT:RATio"]

/-- Mutable state of a `Keithley6500` object relevant to measurement
function selection: `self._functionStr` (initially `None`) and
`self.channel`. -/
structure DMMState where
  functionStr : Option String
  channel : Nat
deriving DecidableEq

/-- State of a freshly constructed `Keithley6500`: `_functionStr = None`
and channel 1. -/
def Keithley6500.initState : DMMState :=
  { functionStr := none, channel := 1 }

/-- `self._bool2onORoff` from the SCPI base class. -/
def Keithley6500.bool2onORoff (b : Bool) : String :=
  if b then "ON" else "OFF"

/-- Embedding of `Keithley6500.setMeasureFunction`: look the function key
up in `_functions`, raising `ValueError` (before any command is written)
if unknown; otherwise record the key in `_functionStr`, update the
channel if one was passed, and write the `SENS...:FUNC:ON` command.  The
result carries the new state and the list of command strings written. -/
def Keithley6500.setMeasureFunction (st : DMMState) (function : String)
    (channel : Option Nat) : Except String (DMMState × List String) :=
  match Keithley6500.functionsGet function with
  | none => Except.error ("setMeasureFunction: unknown function " ++ function)
  | some functionCmdStr =>
    let st1 : DMMState :=
      { functionStr := some function,
        channel := match channel with | none => st.channel | some c => c }
    Except.ok (st1,
      ["SENS" ++ toString st1.channel ++ ":FUNC:ON \"" ++ functionCmdStr ++ "\""])

/-- Embedding of `Keithley6500.setAutoZero`: resolve the function (the
stored `_functionStr` when the argument is omitted), raising `ValueError`
before any command for an unknown function or for a function outside the
AutoZero allow-list; otherwise write the `AZERo:STATe` command. -/
def Keithley6500.setAutoZero (st : DMMState) (onState : Bool)
    (function : Option String) (channel : Option Nat) :
    Except String (DMMState × List String) :=
  let functionStr : Option String :=
    match function with
    | none => st.functionStr
    | some f => some f
  match functionStr with
  | none => Except.error "setAutoZero: unknown function None"
  | some f =>
    match Keithley6500.functionsGet f with
    | none => Except.error ("setAutoZero: unknown function " ++ f)
    | some functionCmdStr =>
      if functionCmdStr ∈ Keithley6500.allowedAutoZero then
        let st1 : DMMState :=
          { functionStr := st.functionStr,
            channel := match channel with | none => st.channel | some c => c }
        Except.ok (st1,
          ["SENS" ++ toString st1.channel ++ ":" ++ functionCmdStr ++
            ":AZERo:STATe " ++ Keithley6500.bool2onORoff onState])
      else
        Except.error ("setAutoZero: Changing AutoZero is not valid for function " ++ f)

/-- Embedding of `Keithley6500.isOutputOn`: the device has no output, so
the method unconditionally returns `False`. -/
def Keithley6500.isOutputOn (_channel : Option Nat) : Bool := false

/-- Embedding of `Keithley6500.isInputOn`: the input is always on for the
DMM6500, so the method unconditionally returns `True`. -/
def Keithley6500.isInputOn (_channel : Option Nat) : Bool := true

/-- Embedding of `Keithley6500.outputOn`: a silent no-op that never
raises. -/
def Keithley6500.outputOn (_channel : Option Nat) (_wait : Option ℚ) :
    Except String Unit := Except.ok ()

/-- Embedding of `Keithley6500.outputOff`: a silent no-op that never
raises. -/
def Keithley6500.outputOff (_channel : Option Nat) (_wait : Option ℚ) :
    Except String Unit := Except.ok ()

/- ------------------------------------------------------------------ -/
/- power_tests.py: data model of the sweep orchestrator                -/
/- ------------------------------------------------------------------ -/

/-- The `DCTestParam` frozen dataclass of power_tests.py. -/
structure DCTestParam where
  upper : ℚ
  max_iin : ℚ
  ovp : ℚ
  ocp : ℚ
  vins : List ℚ
  vin_wait : ℚ
  loads : List ℚ
  load_wait : ℚ

/-- One row appended to `data` by `DCTest`, in the order of
`data.append([trial+1, vin, load, inVoltage, inCurrent, inPower,
outVoltage, outCurrent, outPower, efficiency])`. -/
structure SamplePoint where
  trial : Nat
  setVin : ℚ
  setLoad : ℚ
  inVoltage : ℚ
  inCurrent : ℚ
  inPower : ℚ
  outVoltage : ℚ
  outCurrent : ℚ
  outPower : ℚ
  efficiency : ℚ
deriving DecidableEq

/-- Device commands and waits issued by `DCTest`, in program order.
Power-supply events carry the identity of the supply object they are
issued to, so that the `PS` parameter and the module-global `ps` can be
told apart. -/
inductive Event
  | psOutputOff (inst : Nat)
  | psOutputOn (inst : Nat)
  | psSetVoltage (inst : Nat) (v : ℚ)
  | psSetCurrent (inst : Nat) (c : ℚ)
  | psSetOVP (inst : Nat) (v : ℚ)
  | psSetOCP (inst : Nat) (c : ℚ)
  | psMeasure (inst : Nat)
  | dmmInit
  | dmmSetup
  | eloadInit
  | eloadSetup
  | eloadInputOff
  | eloadInputOn
  | eloadSetCurrent (c : ℚ) (w : ℚ)
  | dmmMeasure
  | eloadMeasure
  | ptbPower (enabled : Bool)
  | sleepFor (t : ℚ)
  | eloadStop
  | dmmStop
  | psStop (inst : Nat)
deriving DecidableEq

/-- Values returned by the measurement queries during a run of `DCTest`:
`startV`/`startC` are the first `measurePowerValues(PS)` reading (taken
right after `PS.outputOn()`), `baseV`/`baseC` the second (taken after
`PTB.powerEnable(...)`), and `psV`/`psC`/`outV`/`outC` give the
supply/DMM/E-load readings of the n-th sampling iteration. -/
structure Oracle where
  startV : ℚ
  startC : ℚ
  baseV : ℚ
  baseC : ℚ
  psV : Nat → ℚ
  psC : Nat → ℚ
  outV : Nat → ℚ
  outC : Nat → ℚ

/-- Context of one `DCTest` invocation: the sweep parameters, the
measurement oracle, the identity of the `PS` argument, the identity of
the module-global `ps`, and the cooperative-interrupt point: `some k`
means a KeyboardInterrupt is delivered at the start of the sampling
iteration that would produce the (k+1)-th SamplePoint. -/
structure Ctx where
  p : DCTestParam
  o : Oracle
  PSinst : Nat
  psGlobal : Nat
  kbAfter : Option Nat

/-- Run state of `DCTest`'s main loop: the `data` list, the `trialsDone`
counter, whether the electronic load's input is currently enabled, and
the trace of events issued so far. -/
structure RunState where
  data : List SamplePoint
  trialsDone : Nat
  eloadOn : Bool
  events : List Event
deriving DecidableEq

/-- Exceptions that can escape the loop body: the KeyboardInterrupt the
`try` block catches, the ZeroDivisionError of `outPower / inPower` (not
caught), and the IndexError of `param.vins[0]` on an empty sweep (not
caught). -/
inductive PyErr
  | kbInt
  | zeroDiv
  | indexError
deriving DecidableEq

/-- The run metadata `meta = ['DC Test', circuit, trialsDone]`. -/
structure MetaData where
  kind : String
  circuit : String
  trialsDone : Nat
deriving DecidableEq

/-- The archive written by `dataSaveNPZ`: the rows and, when supplied,
the header and the metadata. -/
structure NPZFile where
  rows : List SamplePoint
  header : Option (List String)
  meta : Option MetaData
deriving DecidableEq

/-- Embedding of `dataSaveNPZ`: stores the arrays and returns
`len(rows)`. -/
def dataSaveNPZ (rows : List SamplePoint) (header : Option (List String))
    (meta : Option MetaData) : Nat × NPZFile :=
  (rows.length, { rows := rows, header := header, meta := meta })

/-- The header list of `DCTest`. -/
def dcHeader : List String :=
  ["Trial", "Set VIN", "Set Load", "VIN (V)", "IIN (A)", "PIN (W)",
   "VOUT (V)", "IOUT (A)", "POUT (W)", "Efficiency (%)"]

/- ------------------------------------------------------------------ -/
/- power_tests.py: the DCTest control loop                             -/
/- ------------------------------------------------------------------ -/

/-- Events of `setPowerValues(ps, voltage, current, OVP, OCP)`: program
voltage and current, optionally the protections, then the trailing
`measurePowerValues(ps)` read. -/
def setPowerValuesEvents (inst : Nat) (voltage current : ℚ)
    (ovp ocp : Option ℚ) : List Event :=
  [Event.psSetVoltage inst voltage, Event.psSetCurrent inst current]
  ++ (match ovp with | some x => [Event.psSetOVP inst x] | none => [])
  ++ (match ocp with | some x => [Event.psSetOCP inst x] | none => [])
  ++ [Event.psMeasure inst]

/-- Embedding of the per-load E-load handling at the top of the inner
loop of `DCTest`: a zero load disables the input and waits the load
settle time; a non-zero load with the input off programs the current
before enabling, enables, then programs it again with the settle wait;
a non-zero load with the input already on only programs it once. -/
def loadStep (p : DCTestParam) (load : ℚ) (st : RunState) : RunState :=
  if load = 0 then
    { data := st.data, trialsDone := st.trialsDone, eloadOn := false,
      events := st.events ++ [Event.eloadInputOff, Event.sleepFor p.load_wait] }
  else if st.eloadOn then
    { data := st.data, trialsDone := st.trialsDone, eloadOn := true,
      events := st.events ++ [Event.eloadSetCurrent load p.load_wait] }
  else
    { data := st.data, trialsDone := st.trialsDone, eloadOn := true,
      events := st.events ++
        [Event.eloadSetCurrent load (1 / 5), Event.eloadInputOn,
         Event.eloadSetCurrent load p.load_wait] }

/-- Embedding of one iteration of the inner (load) loop of `DCTest`: the
cooperative KeyboardInterrupt check, the E-load handling, the three
measurements, the derived quantities (input current from the supply
reading minus the start baseline current, the two powers, and the raw
efficiency ratio whose division raises ZeroDivisionError when the input
power is exactly zero), and the append to `data`. -/
def sampleIter (ctx : Ctx) (trial : Nat) (vin load : ℚ) (st : RunState) :
    RunState × Option PyErr :=
  if ctx.kbAfter = some st.data.length then (st, some PyErr.kbInt)
  else
    let st1 := loadStep ctx.p load st
    let n := st1.data.length
    let psVoltage := ctx.o.psV n
    let psCurrent := ctx.o.psC n
    let inVoltage := psVoltage
    let inCurrent := psCurrent - ctx.o.startC
    let outVoltage := ctx.o.outV n
    let outCurrent := ctx.o.outC n
    let outPower := outVoltage * outCurrent
    let inPower := inVoltage * inCurrent
    let st2 : RunState :=
      { data := st1.data, trialsDone := st1.trialsDone, eloadOn := st1.eloadOn,
        events := st1.events ++
          [Event.psMeasure ctx.PSinst, Event.dmmMeasure, Event.eloadMeasure] }
    if inPower = 0 then
      (st2, some PyErr.zeroDiv)
    else
      let efficiency := outPower / inPower * 100
      ({ data := st2.data ++
           [{ trial := trial + 1, setVin := vin, setLoad := load,
              inVoltage := inVoltage, inCurrent := inCurrent, inPower := inPower,
              outVoltage := outVoltage, outCurrent := outCurrent,
              outPower := outPower, efficiency := efficiency }],
         trialsDone := st2.trialsDone, eloadOn := st2.eloadOn,
         events := st2.events }, none)

/-- The inner `for load in param.loads` loop of `DCTest`; an exception in
an iteration aborts the remaining iterations. -/
def innerLoop (ctx : Ctx) (trial : Nat) (vin : ℚ) :
    List ℚ → RunState → RunState × Option PyErr
  | [], st => (st, none)
  | load :: rest, st =>
    let r := sampleIter ctx trial vin load st
    match r.2 with
    | none => innerLoop ctx trial vin rest r.1
    | some e => (r.1, some e)

/-- The per-voltage programming at the top of the `for vin in param.vins`
loop body: `setPowerValues(ps, vin, param.max_iin)` — issued to the
module-global `ps`, not to the `PS` parameter — followed by
`sleep(param.vin_wait)`. -/
def vinSetup (ctx : Ctx) (vin : ℚ) (st : RunState) : RunState :=
  { data := st.data, trialsDone := st.trialsDone, eloadOn := st.eloadOn,
    events := st.events
      ++ setPowerValuesEvents ctx.psGlobal vin ctx.p.max_iin none none
      ++ [Event.sleepFor ctx.p.vin_wait] }

/-- The `for vin in param.vins` loop of `DCTest`. -/
def vinLoop (ctx : Ctx) (trial : Nat) :
    List ℚ → RunState → RunState × Option PyErr
  | [], st => (st, none)
  | vin :: rest, st =>
    let r := innerLoop ctx trial vin ctx.p.loads (vinSetup ctx vin st)
    match r.2 with
    | none => vinLoop ctx trial rest r.1
    | some e => (r.1, some e)

/-- The `for trial in range(0, trials)` loop of `DCTest`, counting down
the remaining trials while carrying the current trial index; a fully
finished trial increments `trialsDone`. -/
def trialLoopAux (ctx : Ctx) : Nat → Nat → RunState → RunState × Option PyErr
  | 0, _, st => (st, none)
  | r + 1, t, st =>
    let q := vinLoop ctx t ctx.p.vins st
    match q.2 with
    | none =>
      trialLoopAux ctx r (t + 1)
        { data := q.1.data, trialsDone := q.1.trialsDone + 1,
          eloadOn := q.1.eloadOn, events := q.1.events }
    | some e => (q.1, some e)

/-- The whole `try` block of `DCTest`. -/
def trialLoop (ctx : Ctx) (trials : Nat) (st : RunState) :
    RunState × Option PyErr :=
  trialLoopAux ctx trials 0 st

/-- Initialization events of `DCTest` up to (but excluding) the
`param.vins[0]` access: supply off, instrument init of DMM and E-load,
DMM configuration, E-load input off and configuration. -/
def initEventsPre (ctx : Ctx) : List Event :=
  [Event.psOutputOff ctx.PSinst, Event.dmmInit, Event.eloadInit,
   Event.dmmSetup, Event.eloadInputOff, Event.eloadSetup]

/-- All initialization events of `DCTest` before the main loop: the
pre-events, then `setPowerValues(PS, param.vins[0], param.max_iin,
OVP=param.ovp, OCP=param.ocp)`, supply output on, a settle sleep, the
`startValues` baseline read, the DUT power-path enable, another settle
sleep, and the `baseValues` baseline read. -/
def initEvents (ctx : Ctx) (v0 : ℚ) : List Event :=
  initEventsPre ctx
  ++ setPowerValuesEvents ctx.PSinst v0 ctx.p.max_iin (some ctx.p.ovp) (some ctx.p.ocp)
  ++ [Event.psOutputOn ctx.PSinst, Event.sleepFor 2,
      Event.psMeasure ctx.PSinst,
      Event.ptbPower true, Event.sleepFor 2,
      Event.psMeasure ctx.PSinst]

/-- Teardown events after the data file is written: E-load and DMM
stopped, DUT power path disabled, supply stopped. -/
def teardownEvents (ctx : Ctx) : List Event :=
  [Event.sleepFor 1, Event.eloadStop, Event.dmmStop,
   Event.sleepFor 1, Event.ptbPower false,
   Event.sleepFor 1, Event.psStop ctx.PSinst]

/-- Result of a `DCTest` call: a completed run (normal or interrupted)
with the written NPZ file, the row count `dataSaveNPZ` returned, the
final run state and whether a KeyboardInterrupt was caught — or an
uncaught exception that aborted the call before any data was saved. -/
inductive DCResult
  | completed (saved : NPZFile) (dataLen : Nat) (st : RunState) (interrupted : Bool)
  | raised (e : PyErr) (st : RunState)
deriving DecidableEq

/-- The run state right before `DCTest` enters the `try` block: no data,
no finished trial, E-load input off, all initialization events issued. -/
def initState (ctx : Ctx) (v0 : ℚ) : RunState :=
  { data := [], trialsDone := 0, eloadOn := false, events := initEvents ctx v0 }

/-- Embedding of `DCTest(PS, PTB, DMM, ELOAD, circuit, trials, param)`:
initialization, the `try` block of nested loops (KeyboardInterrupt
caught, ZeroDivisionError not caught), E-load input off, the
`dataSaveNPZ` call with header and `['DC Test', circuit, trialsDone]`
metadata, and teardown. -/
def DCTest (ctx : Ctx) (circuit : String) (trials : Nat) : DCResult :=
  match ctx.p.vins with
  | [] =>
    DCResult.raised PyErr.indexError
      { data := [], trialsDone := 0, eloadOn := false, events := initEventsPre ctx }
  | v0 :: _ =>
    let r := trialLoop ctx trials (initState ctx v0)
    match r.2 with
    | some PyErr.zeroDiv => DCResult.raised PyErr.zeroDiv r.1
    | some PyErr.indexError => DCResult.raised PyErr.indexError r.1
    | e =>
      let st1 := r.1
      let st2 : RunState :=
        { data := st1.data, trialsDone := st1.trialsDone, eloadOn := false,
          events := st1.events ++ [Event.eloadInputOff] }
      let meta : MetaData :=
        { kind := "DC Test", circuit := circuit, trialsDone := st2.trialsDone }
      let saveRes := dataSaveNPZ st2.data (some dcHeader) (some meta)
      let st3 : RunState :=
        { data := st2.data, trialsDone := st2.trialsDone, eloadOn := st2.eloadOn,
          events := st2.events ++ teardownEvents ctx }
      DCResult.completed saveRes.2 saveRes.1 st3 (decide (e = some PyErr.kbInt))

/-- Whether the `DCTest` call ran to its end (no uncaught exception). -/
def DCResult.isCompleted : DCResult → Bool
  | DCResult.completed _ _ _ _ => true
  | DCResult.raised _ _ => false

/-- Whether the run was ended by a caught KeyboardInterrupt. -/
def DCResult.wasInterrupted : DCResult → Bool
  | DCResult.completed _ _ _ b => b
  | DCResult.raised _ _ => false

/-- The rows of the persisted dataset (empty when nothing was saved). -/
def DCResult.savedRows : DCResult → List SamplePoint
  | DCResult.completed f _ _ _ => f.rows
  | DCResult.raised _ _ => []

/-- The row count returned by `dataSaveNPZ` (0 when nothing was saved). -/
def DCResult.savedLen : DCResult → Nat
  | DCResult.completed _ n _ _ => n
  | DCResult.raised _ _ => 0

/-- The completed-trial count recorded in the persisted metadata. -/
def DCResult.savedTrials : DCResult → Nat
  | DCResult.completed f _ _ _ =>
    match f.meta with
    | some m => m.trialsDone
    | none => 0
  | DCResult.raised _ _ => 0

/-- The full event trace of the call. -/
def DCResult.finalEvents : DCResult → List Event
  | DCResult.completed _ _ st _ => st.events
  | DCResult.raised _ st => st.events

/-- The uncaught exception the call ended with, if any. -/
def DCResult.errOf : DCResult → Option PyErr
  | DCResult.completed _ _ _ _ => none
  | DCResult.raised e _ => some e

/-- The instruments that `psSetVoltage` events of a trace are addressed
to, in order. -/
def setVTargets (evs : List Event) : List Nat :=
  evs.filterMap (fun e =>
    match e with
    | Event.psSetVoltage i _ => some i
    | _ => none)

/-- The `(trial+1, vin, load)` key columns of the rows a completed sweep
produces, trials outermost, then input voltages, then loads. -/
def sweepKeys (trials : Nat) (vins loads : List ℚ) : List (Nat × ℚ × ℚ) :=
  (List.range trials).flatMap (fun t =>
    vins.flatMap (fun v => loads.map (fun l => (t + 1, v, l))))

/-- The key columns of one SamplePoint. -/
def SamplePoint.key (s : SamplePoint) : Nat × ℚ × ℚ :=
  (s.trial, s.setVin, s.setLoad)

/- ------------------------------------------------------------------ -/
/- Structural lemmas about the loop embedding                          -/
/- ------------------------------------------------------------------ -/

theorem loadStep_data (p : DCTestParam) (load : ℚ) (st : RunState) :
    (loadStep p load st).data = st.data := by
  unfold loadStep
  split
  · rfl
  · split <;> rfl

theorem loadStep_trialsDone (p : DCTestParam) (load : ℚ) (st : RunState) :
    (loadStep p load st).trialsDone = st.trialsDone := by
  unfold loadStep
  split
  · rfl
  · split <;> rfl

theorem loadStep_events (p : DCTestParam) (load : ℚ) (st : RunState) :
    ∃ tail, (loadStep p load st).events = st.events ++ tail ∧
      setVTargets tail = [] := by
  unfold loadStep
  split
  · exact ⟨_, rfl, rfl⟩
  · split
    · exact ⟨_, rfl, rfl⟩
    · exact ⟨_, rfl, rfl⟩

theorem setVTargets_append (a b : List Event) :
    setVTargets (a ++ b) = setVTargets a ++ setVTargets b :=
  List.filterMap_append a b _

/-- The input power computed in sampling iteration `n`. -/
def inPowerAt (o : Oracle) (n : Nat) : ℚ :=
  o.psV n * (o.psC n - o.startC)

/-- A `sampleIter` at a state where the interrupt is delivered returns
the state unchanged with a KeyboardInterrupt. -/
theorem sampleIter_kb (ctx : Ctx) (trial : Nat) (vin load : ℚ) (st : RunState)
    (hkb : ctx.kbAfter = some st.data.length) :
    sampleIter ctx trial vin load st = (st, some PyErr.kbInt) := by
  unfold sampleIter
  rw [if_pos hkb]

/-- A `sampleIter` that is neither interrupted nor hits a zero input
power appends exactly one row, leaves the trial counter alone, and emits
only E-load/measurement events (no voltage setpoint command). -/
theorem sampleIter_spec (ctx : Ctx) (trial : Nat) (vin load : ℚ) (st : RunState)
    (hkb : ctx.kbAfter ≠ some st.data.length)
    (hnz : inPowerAt ctx.o st.data.length ≠ 0) :
    (sampleIter ctx trial vin load st).2 = none ∧
    (sampleIter ctx trial vin load st).1.data.length = st.data.length + 1 ∧
    (sampleIter ctx trial vin load st).1.trialsDone = st.trialsDone ∧
    ∃ s tail,
      (sampleIter ctx trial vin load st).1.data = st.data ++ [s] ∧
      s.key = (trial + 1, vin, load) ∧
      (sampleIter ctx trial vin load st).1.events = st.events ++ tail ∧
      setVTargets tail = [] ∧ Event.psMeasure ctx.PSinst ∈ tail := by
  obtain ⟨ltail, hlev, hlt⟩ := loadStep_events ctx.p load st
  unfold sampleIter
  rw [if_neg hkb]
  simp only [loadStep_data, loadStep_trialsDone]
  rw [if_neg (by simpa [inPowerAt] using hnz)]
  refine ⟨rfl, by simp, rfl, ?_⟩
  refine ⟨_, ltail ++ [Event.psMeasure ctx.PSinst, Event.dmmMeasure, Event.eloadMeasure],
    rfl, rfl, ?_, ?_, ?_⟩
  · simp only [hlev, List.append_assoc]
  · rw [setVTargets_append, hlt]
    rfl
  · simp

/-- An inner load loop whose window of sampling iterations contains no
interrupt point and no zero input power runs to completion: one row per
load, in load order, with no voltage setpoint command emitted. -/
theorem innerLoop_complete (ctx : Ctx) (trial : Nat) (vin : ℚ)
    (hnz : ∀ n, inPowerAt ctx.o n ≠ 0) (loads : List ℚ) :
    ∀ st : RunState,
      (∀ j, st.data.length ≤ j → j < st.data.length + loads.length →
          ctx.kbAfter ≠ some j) →
      (innerLoop ctx trial vin loads st).2 = none ∧
      (innerLoop ctx trial vin loads st).1.data.length = st.data.length + loads.length ∧
      (innerLoop ctx trial vin loads st).1.trialsDone = st.trialsDone ∧
      ∃ added tail,
        (innerLoop ctx trial vin loads st).1.data = st.data ++ added ∧
        added.map SamplePoint.key = loads.map (fun l => (trial + 1, vin, l)) ∧
        (innerLoop ctx trial vin loads st).1.events = st.events ++ tail ∧
        setVTargets tail = [] := by
  induction loads with
  | nil =>
    intro st _
    exact ⟨rfl, by simp [innerLoop], rfl, [], [],
      by simp [innerLoop], rfl, by simp [innerLoop], rfl⟩
  | cons load rest ih =>
    intro st hno
    have hkb : ctx.kbAfter ≠ some st.data.length :=
      hno st.data.length le_rfl (by rw [List.length_cons]; omega)
    obtain ⟨h2, hlen, htd, s, tail, hdata, hkey, hev, htt, _⟩ :=
      sampleIter_spec ctx trial vin load st hkb (hnz _)
    have hstep : innerLoop ctx trial vin (load :: rest) st =
        innerLoop ctx trial vin rest (sampleIter ctx trial vin load st).1 := by
      simp only [innerLoop, h2]
    obtain ⟨ih2, ihlen, ihtd, added, tail2, ihdata, ihkey, ihev, ihtt⟩ :=
      ih (sampleIter ctx trial vin load st).1
        (by
          intro j h1 h2j
          rw [hlen] at h1 h2j
          exact hno j (by omega) (by rw [List.length_cons]; omega))
    rw [hstep]
    refine ⟨ih2, ?_, ihtd.trans htd, s :: added, tail ++ tail2, ?_, ?_, ?_, ?_⟩
    · rw [ihlen, hlen, List.length_cons]
      omega
    · rw [ihdata, hdata, List.append_assoc]
      rfl
    · rw [List.map_cons, hkey, ihkey, List.map_cons]
    · rw [ihev, hev, List.append_assoc]
    · rw [setVTargets_append, htt, ihtt]
      rfl

/-- An inner load loop whose window of sampling iterations contains the
interrupt point `k` stops with a KeyboardInterrupt after exactly `k`
rows exist in total, emitting no voltage setpoint command. -/
theorem innerLoop_interrupted (ctx : Ctx) (trial : Nat) (vin : ℚ)
    (hnz : ∀ n, inPowerAt ctx.o n ≠ 0) (k : Nat)
    (hk : ctx.kbAfter = some k) (loads : List ℚ) :
    ∀ st : RunState,
      st.data.length ≤ k → k < st.data.length + loads.length →
      (innerLoop ctx trial vin loads st).2 = some PyErr.kbInt ∧
      (innerLoop ctx trial vin loads st).1.data.length = k ∧
      (innerLoop ctx trial vin loads st).1.trialsDone = st.trialsDone ∧
      ∃ tail,
        (innerLoop ctx trial vin loads st).1.events = st.events ++ tail ∧
        setVTargets tail = [] := by
  induction loads with
  | nil =>
    intro st h1 h2
    simp only [List.length_nil] at h2
    omega
  | cons load rest ih =>
    intro st h1 h2
    by_cases hEq : st.data.length = k
    · have hkb : ctx.kbAfter = some st.data.length := by rw [hEq]; exact hk
      have hsi := sampleIter_kb ctx trial vin load st hkb
      have hstep : innerLoop ctx trial vin (load :: rest) st = (st, some PyErr.kbInt) := by
        simp only [innerLoop, hsi]
      rw [hstep]
      exact ⟨rfl, hEq, rfl, [], by simp, rfl⟩
    · have hkb : ctx.kbAfter ≠ some st.data.length := by
        rw [hk]
        intro hc
        exact hEq (Option.some.inj hc).symm
      obtain ⟨h2s, hlen, htd, s, tail, hdata, hkey, hev, htt, _⟩ :=
        sampleIter_spec ctx trial vin load st hkb (hnz _)
      have hstep : innerLoop ctx trial vin (load :: rest) st =
          innerLoop ctx trial vin rest (sampleIter ctx trial vin load st).1 := by
        simp only [innerLoop, h2s]
      obtain ⟨ih2, ihlen, ihtd, tail2, ihev, ihtt⟩ :=
        ih (sampleIter ctx trial vin load st).1
          (by rw [hlen]; omega)
          (by rw [hlen]; rw [List.length_cons] at h2; omega)
      rw [hstep]
      refine ⟨ih2, ihlen, ihtd.trans htd, tail ++ tail2, ?_, ?_⟩
      · rw [ihev, hev, List.append_assoc]
      · rw [setVTargets_append, htt, ihtt]
        rfl

/-- The per-voltage programming step leaves data and trial counter
alone and emits exactly one voltage setpoint command — addressed to the
module-global `ps`. -/
theorem vinSetup_spec (ctx : Ctx) (vin : ℚ) (st : RunState) :
    (vinSetup ctx vin st).data = st.data ∧
    (vinSetup ctx vin st).trialsDone = st.trialsDone ∧
    ∃ tail, (vinSetup ctx vin st).events = st.events ++ tail ∧
      setVTargets tail = [ctx.psGlobal] := by
  refine ⟨rfl, rfl,
    setPowerValuesEvents ctx.psGlobal vin ctx.p.max_iin none none
      ++ [Event.sleepFor ctx.p.vin_wait], ?_, rfl⟩
  simp only [vinSetup, List.append_assoc]

/-- A voltage loop whose window contains no interrupt point and no zero
input power runs to completion, producing `|loads|` rows per voltage in
nested order; all voltage setpoint commands it emits target the
module-global `ps`. -/
theorem vinLoop_complete (ctx : Ctx) (trial : Nat)
    (hnz : ∀ n, inPowerAt ctx.o n ≠ 0) (vins : List ℚ) :
    ∀ st : RunState,
      (∀ j, st.data.length ≤ j →
          j < st.data.length + vins.length * ctx.p.loads.length →
          ctx.kbAfter ≠ some j) →
      (vinLoop ctx trial vins st).2 = none ∧
      (vinLoop ctx trial vins st).1.data.length =
        st.data.length + vins.length * ctx.p.loads.length ∧
      (vinLoop ctx trial vins st).1.trialsDone = st.trialsDone ∧
      ∃ added tail,
        (vinLoop ctx trial vins st).1.data = st.data ++ added ∧
        added.map SamplePoint.key =
          vins.flatMap (fun v => ctx.p.loads.map (fun l => (trial + 1, v, l))) ∧
        (vinLoop ctx trial vins st).1.events = st.events ++ tail ∧
        (∀ i ∈ setVTargets tail, i = ctx.psGlobal) := by
  induction vins with
  | nil =>
    intro st _
    exact ⟨rfl, by simp [vinLoop], rfl, [], [],
      by simp [vinLoop], rfl, by simp [vinLoop], by simp [setVTargets]⟩
  | cons vin rest ih =>
    intro st hno
    obtain ⟨hsd, hstd, tail0, hsev, hst0⟩ := vinSetup_spec ctx vin st
    obtain ⟨h2, hlen, htd, added1, tail1, hdata, hkey, hev, htt⟩ :=
      innerLoop_complete ctx trial vin hnz ctx.p.loads (vinSetup ctx vin st)
        (by
          intro j h1 h2j
          rw [hsd] at h1 h2j
          refine hno j h1 ?_
          rw [List.length_cons, Nat.succ_mul]
          omega)
    have hstep : vinLoop ctx trial (vin :: rest) st =
        vinLoop ctx trial rest
          (innerLoop ctx trial vin ctx.p.loads (vinSetup ctx vin st)).1 := by
      simp only [vinLoop, h2]
    obtain ⟨ih2, ihlen, ihtd, added2, tail2, ihdata, ihkey, ihev, ihtt⟩ :=
      ih (innerLoop ctx trial vin ctx.p.loads (vinSetup ctx vin st)).1
        (by
          intro j h1 h2j
          rw [hlen, hsd] at h1 h2j
          refine hno j (by omega) ?_
          rw [List.length_cons, Nat.succ_mul]
          omega)
    rw [hstep]
    refine ⟨ih2, ?_, ihtd.trans (htd.trans hstd), added1 ++ added2,
      tail0 ++ (tail1 ++ tail2), ?_, ?_, ?_, ?_⟩
    · rw [ihlen, hlen, hsd, List.length_cons, Nat.succ_mul]
      omega
    · rw [ihdata, hdata, hsd, List.append_assoc]
    · rw [List.map_append, hkey, ihkey, List.flatMap_cons]
    · rw [ihev, hev, hsev, List.append_assoc, List.append_assoc]
    · intro i hi
      rw [setVTargets_append, setVTargets_append, hst0, htt] at hi
      rcases List.mem_append.mp hi with hi | hi
      · simpa using hi
      · rcases List.mem_append.mp hi with hi | hi
        · simp at hi
        · exact ihtt i hi

/-- A voltage loop whose window contains the interrupt point `k` stops
with a KeyboardInterrupt after exactly `k` rows exist in total; all
voltage setpoint commands it emits target the module-global `ps`. -/
theorem vinLoop_interrupted (ctx : Ctx) (trial : Nat)
    (hnz : ∀ n, inPowerAt ctx.o n ≠ 0) (k : Nat)
    (hk : ctx.kbAfter = some k) (vins : List ℚ) :
    ∀ st : RunState,
      st.data.length ≤ k →
      k < st.data.length + vins.length * ctx.p.loads.length →
      (vinLoop ctx trial vins st).2 = some PyErr.kbInt ∧
      (vinLoop ctx trial vins st).1.data.length = k ∧
      (vinLoop ctx trial vins st).1.trialsDone = st.trialsDone ∧
      ∃ tail,
        (vinLoop ctx trial vins st).1.events = st.events ++ tail ∧
        (∀ i ∈ setVTargets tail, i = ctx.psGlobal) := by
  induction vins with
  | nil =>
    intro st h1 h2
    simp only [List.length_nil, Nat.zero_mul] at h2
    omega
  | cons vin rest ih =>
    intro st h1 h2
    obtain ⟨hsd, hstd, tail0, hsev, hst0⟩ := vinSetup_spec ctx vin st
    by_cases hwin : k < st.data.length + ctx.p.loads.length
    · obtain ⟨h2s, hlen, htd, tail1, hev, htt⟩ :=
        innerLoop_interrupted ctx trial vin hnz k hk ctx.p.loads
          (vinSetup ctx vin st) (by rw [hsd]; exact h1) (by rw [hsd]; exact hwin)
      have hstep : vinLoop ctx trial (vin :: rest) st =
          ((innerLoop ctx trial vin ctx.p.loads (vinSetup ctx vin st)).1,
            some PyErr.kbInt) := by
        simp only [vinLoop, h2s]
      rw [hstep]
      refine ⟨rfl, hlen, htd.trans hstd, tail0 ++ tail1, ?_, ?_⟩
      · rw [hev, hsev, List.append_assoc]
      · intro i hi
        rw [setVTargets_append, hst0] at hi
        rcases List.mem_append.mp hi with hi | hi
        · simpa using hi
        · exact absurd hi (by rw [htt]; simp)
    · obtain ⟨h2s, hlen, htd, _, tail1, _, _, hev, htt⟩ :=
        innerLoop_complete ctx trial vin hnz ctx.p.loads (vinSetup ctx vin st)
          (by
            intro j hj1 hj2
            rw [hsd] at hj2
            rw [hk]
            intro hc
            exact absurd ((Option.some.inj hc).symm ▸ hj2) (by omega))
      have hstep : vinLoop ctx trial (vin :: rest) st =
          vinLoop ctx trial rest
            (innerLoop ctx trial vin ctx.p.loads (vinSetup ctx vin st)).1 := by
        simp only [vinLoop, h2s]
      obtain ⟨ih2, ihlen, ihtd, tail2, ihev, ihtt⟩ :=
        ih (innerLoop ctx trial vin ctx.p.loads (vinSetup ctx vin st)).1
          (by rw [hlen, hsd]; omega)
          (by
            rw [hlen, hsd]
            rw [List.length_cons, Nat.succ_mul] at h2
            omega)
      rw [hstep]
      refine ⟨ih2, ihlen, ihtd.trans (htd.trans hstd), tail0 ++ (tail1 ++ tail2), ?_, ?_⟩
      · rw [ihev, hev, hsev, List.append_assoc, List.append_assoc]
      · intro i hi
        rw [setVTargets_append, setVTargets_append, hst0, htt] at hi
        rcases List.mem_append.mp hi with hi | hi
        · simpa using hi
        · rcases List.mem_append.mp hi with hi | hi
          · simp at hi
          · exact ihtt i hi

/-- A trial loop whose window contains no interrupt point and no zero
input power runs all `r` remaining trials: one row per (trial, voltage,
load) combination, trial counter incremented once per finished trial,
and all loop voltage setpoint commands addressed to the module-global
`ps`. -/
theorem trialLoopAux_complete (ctx : Ctx)
    (hnz : ∀ n, inPowerAt ctx.o n ≠ 0) (r : Nat) :
    ∀ (t : Nat) (st : RunState),
      (∀ j, st.data.length ≤ j →
          j < st.data.length + r * (ctx.p.vins.length * ctx.p.loads.length) →
          ctx.kbAfter ≠ some j) →
      (trialLoopAux ctx r t st).2 = none ∧
      (trialLoopAux ctx r t st).1.data.length =
        st.data.length + r * (ctx.p.vins.length * ctx.p.loads.length) ∧
      (trialLoopAux ctx r t st).1.trialsDone = st.trialsDone + r ∧
      ∃ added tail,
        (trialLoopAux ctx r t st).1.data = st.data ++ added ∧
        added.map SamplePoint.key =
          (List.range' t r).flatMap (fun ti =>
            ctx.p.vins.flatMap (fun v =>
              ctx.p.loads.map (fun l => (ti + 1, v, l)))) ∧
        (trialLoopAux ctx r t st).1.events = st.events ++ tail ∧
        (∀ i ∈ setVTargets tail, i = ctx.psGlobal) := by
  induction r with
  | zero =>
    intro t st _
    exact ⟨rfl, by simp [trialLoopAux], rfl, [], [],
      by simp [trialLoopAux], rfl, by simp [trialLoopAux], by simp [setVTargets]⟩
  | succ r ih =>
    intro t st hno
    obtain ⟨h2, hlen, htd, added1, tail1, hdata, hkey, hev, htt⟩ :=
      vinLoop_complete ctx t hnz ctx.p.vins st
        (by
          intro j h1 h2j
          refine hno j h1 ?_
          rw [Nat.succ_mul]
          omega)
    have hstep : trialLoopAux ctx (r + 1) t st =
        trialLoopAux ctx r (t + 1)
          { data := (vinLoop ctx t ctx.p.vins st).1.data,
            trialsDone := (vinLoop ctx t ctx.p.vins st).1.trialsDone + 1,
            eloadOn := (vinLoop ctx t ctx.p.vins st).1.eloadOn,
            events := (vinLoop ctx t ctx.p.vins st).1.events } := by
      simp only [trialLoopAux, h2]
    obtain ⟨ih2, ihlen, ihtd, added2, tail2, ihdata, ihkey, ihev, ihtt⟩ :=
      ih (t + 1)
        { data := (vinLoop ctx t ctx.p.vins st).1.data,
          trialsDone := (vinLoop ctx t ctx.p.vins st).1.trialsDone + 1,
          eloadOn := (vinLoop ctx t ctx.p.vins st).1.eloadOn,
          events := (vinLoop ctx t ctx.p.vins st).1.events }
        (by
          intro j h1 h2j
          simp only at h1 h2j
          rw [hlen] at h1 h2j
          refine hno j (by omega) ?_
          rw [Nat.succ_mul]
          omega)
    rw [hstep]
    refine ⟨ih2, ?_, ?_, added1 ++ added2, tail1 ++ tail2, ?_, ?_, ?_, ?_⟩
    · rw [ihlen]
      simp only
      rw [hlen, Nat.succ_mul]
      omega
    · rw [ihtd]
      simp only
      rw [htd]
      omega
    · rw [ihdata]
      simp only
      rw [hdata, List.append_assoc]
    · rw [List.map_append, hkey, ihkey, List.range'_succ t r 1, List.flatMap_cons]
    · rw [ihev]
      simp only
      rw [hev, List.append_assoc]
    · intro i hi
      rw [setVTargets_append] at hi
      rcases List.mem_append.mp hi with hi | hi
      · exact htt i hi
      · exact ihtt i hi

/-- A trial loop whose window contains the interrupt point `k` stops
with a KeyboardInterrupt after exactly `k` rows, having incremented the
trial counter once per fully finished trial, i.e. `(k - d) / (V * L)`
times when entered with `d` rows. -/
theorem trialLoopAux_interrupted (ctx : Ctx)
    (hnz : ∀ n, inPowerAt ctx.o n ≠ 0) (k : Nat)
    (hk : ctx.kbAfter = some k) (r : Nat) :
    ∀ (t : Nat) (st : RunState),
      st.data.length ≤ k →
      k < st.data.length + r * (ctx.p.vins.length * ctx.p.loads.length) →
      (trialLoopAux ctx r t st).2 = some PyErr.kbInt ∧
      (trialLoopAux ctx r t st).1.data.length = k ∧
      (trialLoopAux ctx r t st).1.trialsDone =
        st.trialsDone +
          (k - st.data.length) / (ctx.p.vins.length * ctx.p.loads.length) ∧
      ∃ tail,
        (trialLoopAux ctx r t st).1.events = st.events ++ tail ∧
        (∀ i ∈ setVTargets tail, i = ctx.psGlobal) := by
  induction r with
  | zero =>
    intro t st h1 h2
    simp only [Nat.zero_mul] at h2
    omega
  | succ r ih =>
    intro t st h1 h2
    by_cases hwin : k < st.data.length + ctx.p.vins.length * ctx.p.loads.length
    · obtain ⟨h2s, hlen, htd, tail1, hev, htt⟩ :=
        vinLoop_interrupted ctx t hnz k hk ctx.p.vins st h1 hwin
      have hstep : trialLoopAux ctx (r + 1) t st =
          ((vinLoop ctx t ctx.p.vins st).1, some PyErr.kbInt) := by
        simp only [trialLoopAux, h2s]
      rw [hstep]
      have hdiv : (k - st.data.length) /
          (ctx.p.vins.length * ctx.p.loads.length) = 0 :=
        Nat.div_eq_of_lt (by omega)
      exact ⟨rfl, hlen, by rw [htd, hdiv]; omega, tail1, hev, htt⟩
    · obtain ⟨h2s, hlen, htd, _, tail1, _, _, hev, htt⟩ :=
        vinLoop_complete ctx t hnz ctx.p.vins st
          (by
            intro j hj1 hj2
            rw [hk]
            intro hc
            exact absurd ((Option.some.inj hc).symm ▸ hj2) (by omega))
      have hstep : trialLoopAux ctx (r + 1) t st =
          trialLoopAux ctx r (t + 1)
            { data := (vinLoop ctx t ctx.p.vins st).1.data,
              trialsDone := (vinLoop ctx t ctx.p.vins st).1.trialsDone + 1,
              eloadOn := (vinLoop ctx t ctx.p.vins st).1.eloadOn,
              events := (vinLoop ctx t ctx.p.vins st).1.events } := by
        simp only [trialLoopAux, h2s]
      obtain ⟨ih2, ihlen, ihtd, tail2, ihev, ihtt⟩ :=
        ih (t + 1)
          { data := (vinLoop ctx t ctx.p.vins st).1.data,
            trialsDone := (vinLoop ctx t ctx.p.vins st).1.trialsDone + 1,
            eloadOn := (vinLoop ctx t ctx.p.vins st).1.eloadOn,
            events := (vinLoop ctx t ctx.p.vins st).1.events }
          (by simp only; rw [hlen]; omega)
          (by
            simp only
            rw [hlen]
            rw [Nat.succ_mul] at h2
            omega)
    -- arithmetic: one full trial consumed, then (k - d - T)/T more
      rw [hstep]
      refine ⟨ih2, ihlen, ?_, tail1 ++ tail2, ?_, ?_⟩
      · rw [ihtd]
        simp only
        rw [htd, hlen]
        have hA : 0 < (r + 1) * (ctx.p.vins.length * ctx.p.loads.length) := by omega
        have hT : 0 < ctx.p.vins.length * ctx.p.loads.length := by
          rcases Nat.eq_zero_or_pos (ctx.p.vins.length * ctx.p.loads.length)
            with h0 | h0
          · rw [h0, Nat.mul_zero] at hA
            omega
          · exact h0
        have hle : ctx.p.vins.length * ctx.p.loads.length ≤ k - st.data.length := by
          omega
        have hdiv := Nat.div_eq_sub_div hT hle
        have harg : k - (st.data.length + ctx.p.vins.length * ctx.p.loads.length) =
            k - st.data.length - ctx.p.vins.length * ctx.p.loads.length := by
          omega
        rw [harg, hdiv]
        omega
      · rw [ihev]
        simp only
        rw [hev, List.append_assoc]
      · intro i hi
        rw [setVTargets_append] at hi
        rcases List.mem_append.mp hi with hi | hi
        · exact htt i hi
        · exact ihtt i hi

/-- When the `try` block ends without an uncaught exception (normally or
by a caught KeyboardInterrupt), `DCTest` saves the accumulated data with
the `trialsDone` metadata and tears the instruments down. -/
theorem DCTest_completed_of (ctx : Ctx) (circuit : String) (trials : Nat)
    (v0 : ℚ) (rest : List ℚ) (hveq : ctx.p.vins = v0 :: rest)
    (e : Option PyErr) (he : (trialLoop ctx trials (initState ctx v0)).2 = e)
    (hne : e ≠ some PyErr.zeroDiv) (hne2 : e ≠ some PyErr.indexError) :
    DCTest ctx circuit trials =
      DCResult.completed
        { rows := (trialLoop ctx trials (initState ctx v0)).1.data,
          header := some dcHeader,
          meta := some
            { kind := "DC Test", circuit := circuit,
              trialsDone := (trialLoop ctx trials (initState ctx v0)).1.trialsDone } }
        (trialLoop ctx trials (initState ctx v0)).1.data.length
        { data := (trialLoop ctx trials (initState ctx v0)).1.data,
          trialsDone := (trialLoop ctx trials (initState ctx v0)).1.trialsDone,
          eloadOn := false,
          events := (trialLoop ctx trials (initState ctx v0)).1.events
            ++ [Event.eloadInputOff] ++ teardownEvents ctx }
        (decide (e = some PyErr.kbInt)) := by
  simp only [DCTest, hveq]
  rw [he]
  rcases e with _ | pe
  · rfl
  · cases pe with
    | kbInt => rfl
    | zeroDiv => exact absurd rfl hne
    | indexError => exact absurd rfl hne2

theorem setVTargets_initEvents (ctx : Ctx) (v0 : ℚ) :
    setVTargets (initEvents ctx v0) = [ctx.PSinst] := rfl

theorem psMeasure_mem_initEvents (ctx : Ctx) (v0 : ℚ) :
    Event.psMeasure ctx.PSinst ∈ initEvents ctx v0 := by
  simp [initEvents, initEventsPre, setPowerValuesEvents]

/- ------------------------------------------------------------------ -/
/- Concrete fixtures used by the witnesses                             -/
/- ------------------------------------------------------------------ -/

/-- A small concrete sweep parameter set. -/
def pW : DCTestParam :=
  { upper := 2, max_iin := 5, ovp := 16, ocp := 7,
    vins := [12, 13], vin_wait := 1, loads := [0, 1], load_wait := 1 }

/-- A concrete oracle: first baseline current 0.050 A and raw supply
current 1.250 A, as in the specification's baseline example. -/
def oW : Oracle :=
  { startV := 12, startC := 1 / 20, baseV := 12, baseC := 1 / 10,
    psV := fun _ => 12, psC := fun _ => 5 / 4,
    outV := fun _ => 5, outC := fun _ => 1 }

/-- Concrete uninterrupted context; the `PS` argument (id 0) is a
different object from the module-global `ps` (id 1). -/
def ctxW : Ctx :=
  { p := pW, o := oW, PSinst := 0, psGlobal := 1, kbAfter := none }

/-- Concrete context whose KeyboardInterrupt arrives after 3 samples. -/
def ctxW2 : Ctx :=
  { p := pW, o := oW, PSinst := 0, psGlobal := 1, kbAfter := some 3 }

/-- An empty run state for exercising single iterations. -/
def stW : RunState :=
  { data := [], trialsDone := 0, eloadOn := false, events := [] }

/-- A one-point sweep parameter set. -/
def pZ : DCTestParam :=
  { upper := 2, max_iin := 5, ovp := 16, ocp := 7,
    vins := [12], vin_wait := 1, loads := [1], load_wait := 1 }

/-- An oracle whose raw supply current equals the baseline current, so
the derived input current — and with it the input power — is exactly
zero. -/
def oZ : Oracle :=
  { startV := 12, startC := 0, baseV := 12, baseC := 0,
    psV := fun _ => 12, psC := fun _ => 0,
    outV := fun _ => 5, outC := fun _ => 1 }

/-- Context in which the first sampling iteration divides by an input
power of exactly zero. -/
def ctxZ : Ctx :=
  { p := pZ, o := oZ, PSinst := 0, psGlobal := 0, kbAfter := none }

/- ------------------------------------------------------------------ -/
/- Claim theorems                                                      -/
/- ------------------------------------------------------------------ -/

/-- Claim C1: every run of the sweep that completes without interruption
and without error appends `trials * |inputVoltageSequence| *
|loadSequence|` SamplePoints to the result sequence — one row per
(trial, vin, load) combination in nested-loop order, trials outermost,
then input voltages, then loads — and the completed-trial counter equals
`trials`. -/
theorem DCTest_complete_row_count (ctx : Ctx) (circuit : String) (trials : Nat)
    (hkb : ctx.kbAfter = none)
    (hnz : ∀ n, inPowerAt ctx.o n ≠ 0)
    (hvins : ctx.p.vins ≠ []) :
    (DCTest ctx circuit trials).isCompleted = true ∧
    (DCTest ctx circuit trials).wasInterrupted = false ∧
    (DCTest ctx circuit trials).savedRows.length =
      trials * ctx.p.vins.length * ctx.p.loads.length ∧
    (DCTest ctx circuit trials).savedRows.map SamplePoint.key =
      sweepKeys trials ctx.p.vins ctx.p.loads ∧
    (DCTest ctx circuit trials).savedTrials = trials := by
  rcases hv : ctx.p.vins with _ | ⟨v0, rest⟩
  · exact absurd hv hvins
  obtain ⟨h2, hlen, htd, added, tail, hdata, hkey, _, _⟩ :=
    trialLoopAux_complete ctx hnz trials 0 (initState ctx v0)
      (by intro j _ _; rw [hkb]; simp)
  rw [hv] at hlen hkey
  have hshape := DCTest_completed_of ctx circuit trials v0 rest hv
    none h2 (by simp) (by simp)
  rw [hshape]
  refine ⟨rfl, rfl, ?_, ?_, ?_⟩
  · show (trialLoop ctx trials (initState ctx v0)).1.data.length = _
    rw [show trialLoop ctx trials (initState ctx v0) =
      trialLoopAux ctx trials 0 (initState ctx v0) from rfl, hlen]
    rw [show (initState ctx v0).data.length = 0 from rfl, Nat.zero_add,
      ← Nat.mul_assoc]
  · show ((trialLoop ctx trials (initState ctx v0)).1.data).map SamplePoint.key = _
    rw [show trialLoop ctx trials (initState ctx v0) =
      trialLoopAux ctx trials 0 (initState ctx v0) from rfl, hdata]
    rw [show (initState ctx v0).data = [] from rfl, List.nil_append, hkey,
      sweepKeys, List.range_eq_range']
  · show (trialLoop ctx trials (initState ctx v0)).1.trialsDone = trials
    rw [show trialLoop ctx trials (initState ctx v0) =
      trialLoopAux ctx trials 0 (initState ctx v0) from rfl, htd]
    rw [show (initState ctx v0).trialsDone = 0 from rfl, Nat.zero_add]

/-- Witness for C1 at a concrete context: 2 trials, 2 voltages, 2 loads
give exactly 8 rows and a trial counter of 2. -/
theorem DCTest_complete_row_count_witness :
    (DCTest ctxW "1V8-A" 2).isCompleted = true ∧
    (DCTest ctxW "1V8-A" 2).wasInterrupted = false ∧
    (DCTest ctxW "1V8-A" 2).savedRows.length =
      2 * ctxW.p.vins.length * ctxW.p.loads.length ∧
    (DCTest ctxW "1V8-A" 2).savedRows.map SamplePoint.key =
      sweepKeys 2 ctxW.p.vins ctxW.p.loads ∧
    (DCTest ctxW "1V8-A" 2).savedTrials = 2 :=
  DCTest_complete_row_count ctxW "1V8-A" 2 rfl
    (by intro n; show (12 : ℚ) * (5 / 4 - 1 / 20) ≠ 0; norm_num)
    (by simp [ctxW, pW])

/-- Claim C2: a KeyboardInterrupt delivered during the sweep after
exactly `k` SamplePoints stops sampling, proceeds to teardown, and
persists exactly `k` rows, with a completed-trial metadata count equal
to the number of fully finished trials, `k / (|vins| * |loads|)`, rather
than anything derived from `k` alone. -/
theorem DCTest_interrupt_partial (ctx : Ctx) (circuit : String)
    (trials k : Nat)
    (hkb : ctx.kbAfter = some k)
    (hnz : ∀ n, inPowerAt ctx.o n ≠ 0)
    (hvins : ctx.p.vins ≠ [])
    (hk : k < trials * (ctx.p.vins.length * ctx.p.loads.length)) :
    (DCTest ctx circuit trials).isCompleted = true ∧
    (DCTest ctx circuit trials).wasInterrupted = true ∧
    (DCTest ctx circuit trials).savedRows.length = k ∧
    (DCTest ctx circuit trials).savedLen = k ∧
    (DCTest ctx circuit trials).savedTrials =
      k / (ctx.p.vins.length * ctx.p.loads.length) ∧
    Event.psStop ctx.PSinst ∈ (DCTest ctx circuit trials).finalEvents := by
  rcases hv : ctx.p.vins with _ | ⟨v0, rest⟩
  · exact absurd hv hvins
  obtain ⟨h2, hlen, htd, tail, hev, htt⟩ :=
    trialLoopAux_interrupted ctx hnz k hkb trials 0 (initState ctx v0)
      (by simp [initState])
      (by simpa [initState] using hk)
  rw [hv] at htd
  have hshape := DCTest_completed_of ctx circuit trials v0 rest hv
    (some PyErr.kbInt) h2 (by simp) (by simp)
  rw [hshape]
  refine ⟨rfl, rfl, ?_, ?_, ?_, ?_⟩
  · exact hlen
  · exact hlen
  · show (trialLoop ctx trials (initState ctx v0)).1.trialsDone = _
    rw [show trialLoop ctx trials (initState ctx v0) =
      trialLoopAux ctx trials 0 (initState ctx v0) from rfl, htd]
    rw [show (initState ctx v0).trialsDone = 0 from rfl,
      show (initState ctx v0).data.length = 0 from rfl, Nat.zero_add,
      Nat.sub_zero]
  · show Event.psStop ctx.PSinst ∈ _ ++ [Event.eloadInputOff] ++ teardownEvents ctx
    simp [teardownEvents]

/-- Witness for C2: interrupt after 3 samples in a 2 × 2 × 2 sweep —
3 rows persisted, 0 completed trials recorded. -/
theorem DCTest_interrupt_partial_witness :
    (DCTest ctxW2 "1V8-A" 2).isCompleted = true ∧
    (DCTest ctxW2 "1V8-A" 2).wasInterrupted = true ∧
    (DCTest ctxW2 "1V8-A" 2).savedRows.length = 3 ∧
    (DCTest ctxW2 "1V8-A" 2).savedLen = 3 ∧
    (DCTest ctxW2 "1V8-A" 2).savedTrials =
      3 / (ctxW2.p.vins.length * ctxW2.p.loads.length) ∧
    Event.psStop ctxW2.PSinst ∈ (DCTest ctxW2 "1V8-A" 2).finalEvents :=
  DCTest_interrupt_partial ctxW2 "1V8-A" 2 3 rfl
    (by intro n; show (12 : ℚ) * (5 / 4 - 1 / 20) ≠ 0; norm_num)
    (by simp [ctxW2, pW])
    (by simp [ctxW2, pW])

/-- Claim C10: inside the main loop the per-voltage `setPowerValues`
call goes to the module-global `ps`, not to the `PS` parameter; when the
two are different objects, `PS` receives exactly one voltage setpoint
command — the one from initialization — every other voltage setpoint is
addressed to the global `ps`, and `PS` is still the instrument used for
the baseline capture and per-sample measurements. -/
theorem DCTest_global_ps_setVoltage (ctx : Ctx) (circuit : String)
    (trials : Nat)
    (hne : ctx.PSinst ≠ ctx.psGlobal)
    (hnz : ∀ n, inPowerAt ctx.o n ≠ 0)
    (hvins : ctx.p.vins ≠ []) :
    (setVTargets (DCTest ctx circuit trials).finalEvents).count ctx.PSinst = 1 ∧
    (∀ i ∈ setVTargets (DCTest ctx circuit trials).finalEvents,
        i = ctx.PSinst ∨ i = ctx.psGlobal) ∧
    Event.psMeasure ctx.PSinst ∈ (DCTest ctx circuit trials).finalEvents := by
  rcases hv : ctx.p.vins with _ | ⟨v0, rest⟩
  · exact absurd hv hvins
  have hloop : ∃ (e : Option PyErr) (tail : List Event),
      (trialLoopAux ctx trials 0 (initState ctx v0)).2 = e ∧
      e ≠ some PyErr.zeroDiv ∧ e ≠ some PyErr.indexError ∧
      (trialLoopAux ctx trials 0 (initState ctx v0)).1.events =
        (initState ctx v0).events ++ tail ∧
      (∀ i ∈ setVTargets tail, i = ctx.psGlobal) := by
    rcases hkb : ctx.kbAfter with _ | k
    · obtain ⟨h2, _, _, _, tail, _, _, hev, htt⟩ :=
        trialLoopAux_complete ctx hnz trials 0 (initState ctx v0)
          (by intro j _ _; rw [hkb]; simp)
      exact ⟨none, tail, h2, by simp, by simp, hev, htt⟩
    · by_cases hlt :
        k < (initState ctx v0).data.length +
          trials * (ctx.p.vins.length * ctx.p.loads.length)
      · obtain ⟨h2, _, _, tail, hev, htt⟩ :=
          trialLoopAux_interrupted ctx hnz k hkb trials 0 (initState ctx v0)
            (by simp [initState]) hlt
        exact ⟨some PyErr.kbInt, tail, h2, by simp, by simp, hev, htt⟩
      · obtain ⟨h2, _, _, _, tail, _, _, hev, htt⟩ :=
          trialLoopAux_complete ctx hnz trials 0 (initState ctx v0)
            (by
              intro j _ hj2
              rw [hkb]
              intro hc
              exact absurd ((Option.some.inj hc).symm ▸ hj2) (by omega))
        exact ⟨none, tail, h2, by simp, by simp, hev, htt⟩
  obtain ⟨e, tail, he, hne1, hne2, hev, htt⟩ := hloop
  have hshape := DCTest_completed_of ctx circuit trials v0 rest hv e he hne1 hne2
  rw [hshape]
  have hfe : ((trialLoop ctx trials (initState ctx v0)).1.events
        ++ [Event.eloadInputOff] ++ teardownEvents ctx) =
      initEvents ctx v0 ++ (tail ++ ([Event.eloadInputOff] ++ teardownEvents ctx)) := by
    rw [show trialLoop ctx trials (initState ctx v0) =
      trialLoopAux ctx trials 0 (initState ctx v0) from rfl, hev]
    show initEvents ctx v0 ++ tail ++ [Event.eloadInputOff] ++ teardownEvents ctx = _
    simp [List.append_assoc]
  refine ⟨?_, ?_, ?_⟩
  · show (setVTargets ((trialLoop ctx trials (initState ctx v0)).1.events
        ++ [Event.eloadInputOff] ++ teardownEvents ctx)).count ctx.PSinst = 1
    rw [hfe, setVTargets_append, setVTargets_initEvents, setVTargets_append]
    rw [show setVTargets ([Event.eloadInputOff] ++ teardownEvents ctx) = [] from rfl]
    rw [List.count_append, List.count_append]
    have hzero : (setVTargets tail).count ctx.PSinst = 0 :=
      List.count_eq_zero.mpr (fun hm => hne (htt ctx.PSinst hm))
    rw [hzero]
    simp
  · show ∀ i ∈ setVTargets ((trialLoop ctx trials (initState ctx v0)).1.events
        ++ [Event.eloadInputOff] ++ teardownEvents ctx),
      i = ctx.PSinst ∨ i = ctx.psGlobal
    intro i hi
    rw [hfe, setVTargets_append, setVTargets_initEvents, setVTargets_append] at hi
    rw [show setVTargets ([Event.eloadInputOff] ++ teardownEvents ctx) = [] from rfl] at hi
    rcases List.mem_append.mp hi with hi | hi
    · exact Or.inl (by simpa using hi)
    · rcases List.mem_append.mp hi with hi | hi
      · exact Or.inr (htt i hi)
      · simp at hi
  · show Event.psMeasure ctx.PSinst ∈
      (trialLoop ctx trials (initState ctx v0)).1.events
        ++ [Event.eloadInputOff] ++ teardownEvents ctx
    rw [hfe]
    exact List.mem_append.mpr (Or.inl (psMeasure_mem_initEvents ctx v0))

/-- Witness for C10 at a concrete context where `PS` (id 0) and the
global `ps` (id 1) differ. -/
theorem DCTest_global_ps_setVoltage_witness :
    (setVTargets (DCTest ctxW "1V8-A" 1).finalEvents).count ctxW.PSinst = 1 ∧
    (∀ i ∈ setVTargets (DCTest ctxW "1V8-A" 1).finalEvents,
        i = ctxW.PSinst ∨ i = ctxW.psGlobal) ∧
    Event.psMeasure ctxW.PSinst ∈ (DCTest ctxW "1V8-A" 1).finalEvents :=
  DCTest_global_ps_setVoltage ctxW "1V8-A" 1 (by simp [ctxW])
    (by intro n; show (12 : ℚ) * (5 / 4 - 1 / 20) ≠ 0; norm_num)
    (by simp [ctxW, pW])

/-- Claim C3: every recorded SamplePoint has derived input current equal
to the raw supply current minus the first baseline current (the
`startValues` reading captured right after enabling supply output,
before the DUT power path is enabled), `outputPower = outputVoltage *
outputCurrent`, `inputPower = inputVoltage * inputCurrent` and
`efficiencyPercent = 100 * outputPower / inputPower`. -/
theorem sampleIter_derived_quantities (ctx : Ctx) (trial : Nat)
    (vin load : ℚ) (st : RunState)
    (hkb : ctx.kbAfter ≠ some st.data.length)
    (hnz : inPowerAt ctx.o st.data.length ≠ 0) :
    ∃ s : SamplePoint,
      (sampleIter ctx trial vin load st).1.data = st.data ++ [s] ∧
      (sampleIter ctx trial vin load st).2 = none ∧
      s.inVoltage = ctx.o.psV st.data.length ∧
      s.inCurrent = ctx.o.psC st.data.length - ctx.o.startC ∧
      s.outPower = s.outVoltage * s.outCurrent ∧
      s.inPower = s.inVoltage * s.inCurrent ∧
      s.efficiency = 100 * s.outPower / s.inPower := by
  unfold sampleIter
  rw [if_neg hkb]
  simp only [loadStep_data, loadStep_trialsDone]
  rw [if_neg (by simpa [inPowerAt] using hnz)]
  refine ⟨_, rfl, rfl, rfl, rfl, rfl, rfl, ?_⟩
  show ctx.o.outV st.data.length * ctx.o.outC st.data.length /
      (ctx.o.psV st.data.length * (ctx.o.psC st.data.length - ctx.o.startC)) * 100 = _
  ring

/-- Witness for C3: a first baseline current of 0.050 A and a raw supply
reading of 1.250 A give a derived input current of 1.200 A. -/
theorem sampleIter_derived_quantities_witness :
    ((sampleIter ctxW 0 12 1 stW).1.data.map (fun s => s.inCurrent)) =
      [6 / 5] ∧
    (sampleIter ctxW 0 12 1 stW).2 = none := by
  obtain ⟨s, hdata, hnone, _, hinc, _, _, _⟩ :=
    sampleIter_derived_quantities ctxW 0 12 1 stW
      (by simp [ctxW])
      (by show (12 : ℚ) * (5 / 4 - 1 / 20) ≠ 0; norm_num)
  refine ⟨?_, hnone⟩
  rw [hdata, show stW.data = [] from rfl, List.nil_append, List.map_cons,
    List.map_nil, hinc]
  norm_num [ctxW, oW, stW]

/-- A sampling iteration whose input power is exactly zero raises
ZeroDivisionError after the measurements, appending nothing. -/
theorem sampleIter_zeroDiv (ctx : Ctx) (trial : Nat) (vin load : ℚ)
    (st : RunState)
    (hkb : ctx.kbAfter ≠ some st.data.length)
    (hz : inPowerAt ctx.o st.data.length = 0) :
    (sampleIter ctx trial vin load st).2 = some PyErr.zeroDiv ∧
    (sampleIter ctx trial vin load st).1.data = st.data := by
  unfold sampleIter
  rw [if_neg hkb]
  simp only [loadStep_data, loadStep_trialsDone]
  rw [if_pos (by simpa [inPowerAt] using hz)]
  exact ⟨rfl, rfl⟩

/-- Counterexample for C4 as stated: with a raw supply current equal to
the baseline current the input power of the first sample is exactly
zero, the division raises an uncaught ZeroDivisionError, no SamplePoint
is appended, and the whole run aborts without saving anything —
the iteration fails rather than producing a value. -/
theorem DCTest_zero_inPower_cex :
    (DCTest ctxZ "1V8-A" 1).errOf = some PyErr.zeroDiv ∧
    (DCTest ctxZ "1V8-A" 1).isCompleted = false ∧
    (DCTest ctxZ "1V8-A" 1).savedRows = [] := by
  have hst : (vinSetup ctxZ 12 (initState ctxZ 12)).data.length = 0 := rfl
  have hkb : ctxZ.kbAfter ≠
      some (vinSetup ctxZ 12 (initState ctxZ 12)).data.length := by
    rw [hst]
    simp [ctxZ]
  have hz : inPowerAt ctxZ.o (vinSetup ctxZ 12 (initState ctxZ 12)).data.length
      = 0 := by
    rw [hst]
    show (12 : ℚ) * (0 - 0) = 0
    norm_num
  have hsi := sampleIter_zeroDiv ctxZ 0 12 1
    (vinSetup ctxZ 12 (initState ctxZ 12)) hkb hz
  have hinner : innerLoop ctxZ 0 12 [1] (vinSetup ctxZ 12 (initState ctxZ 12)) =
      ((sampleIter ctxZ 0 12 1 (vinSetup ctxZ 12 (initState ctxZ 12))).1,
        some PyErr.zeroDiv) := by
    simp only [innerLoop, hsi.1]
  have hloads : ctxZ.p.loads = [1] := rfl
  have hvin : vinLoop ctxZ 0 [12] (initState ctxZ 12) =
      ((sampleIter ctxZ 0 12 1 (vinSetup ctxZ 12 (initState ctxZ 12))).1,
        some PyErr.zeroDiv) := by
    simp only [vinLoop, hloads, hinner]
  have hvins : ctxZ.p.vins = [12] := rfl
  have htl : trialLoopAux ctxZ 1 0 (initState ctxZ 12) =
      ((sampleIter ctxZ 0 12 1 (vinSetup ctxZ 12 (initState ctxZ 12))).1,
        some PyErr.zeroDiv) := by
    simp only [show (1 : Nat) = 0 + 1 from rfl, trialLoopAux, hvins, hvin]
  have hd : DCTest ctxZ "1V8-A" 1 = DCResult.raised PyErr.zeroDiv
      (sampleIter ctxZ 0 12 1 (vinSetup ctxZ 12 (initState ctxZ 12))).1 := by
    simp only [DCTest, hvins]
    rw [show trialLoop ctxZ 1 (initState ctxZ 12) =
      trialLoopAux ctxZ 1 0 (initState ctxZ 12) from rfl, htl]
  rw [hd]
  exact ⟨rfl, rfl, rfl⟩

/-- Claim C4 as amended: the efficiency division is not specially
guarded; for any non-zero input power, however small, the raw ratio is
computed and the SamplePoint appended, but for an input power of exactly
zero the division raises ZeroDivisionError and the iteration fails with
no row appended (the exception is not caught and aborts the run). -/
theorem sampleIter_zero_inPower_split (ctx : Ctx) (trial : Nat)
    (vin load : ℚ) (st : RunState)
    (hkb : ctx.kbAfter ≠ some st.data.length) :
    (inPowerAt ctx.o st.data.length ≠ 0 →
        (sampleIter ctx trial vin load st).2 = none ∧
        (sampleIter ctx trial vin load st).1.data.length = st.data.length + 1) ∧
    (inPowerAt ctx.o st.data.length = 0 →
        (sampleIter ctx trial vin load st).2 = some PyErr.zeroDiv ∧
        (sampleIter ctx trial vin load st).1.data = st.data) := by
  constructor
  · intro hnz
    obtain ⟨h2, hlen, _⟩ := sampleIter_spec ctx trial vin load st hkb hnz
    exact ⟨h2, hlen⟩
  · intro hz
    exact sampleIter_zeroDiv ctx trial vin load st hkb hz

/-- Witness for the amended C4: at the zero-input-power context the
iteration raises and appends nothing. -/
theorem sampleIter_zero_inPower_split_witness :
    (sampleIter ctxZ 0 12 1 stW).2 = some PyErr.zeroDiv ∧
    (sampleIter ctxZ 0 12 1 stW).1.data = stW.data :=
  (sampleIter_zero_inPower_split ctxZ 0 12 1 stW (by simp [ctxZ])).2
    (by show (12 : ℚ) * (0 - 0) = 0; norm_num)

/-- Claim C7: per load value of the inner sweep — a zero load disables
the E-load input and waits the load settle time; a non-zero load with
the input currently disabled programs the target current before
enabling, enables the input, then programs the current again with the
load settle wait; a non-zero load with the input already enabled only
programs it once with the settle wait. -/
theorem sampleIter_load_handling (ctx : Ctx) (trial : Nat) (vin load : ℚ)
    (st : RunState)
    (hkb : ctx.kbAfter ≠ some st.data.length)
    (hnz : inPowerAt ctx.o st.data.length ≠ 0) :
    (load = 0 →
        (sampleIter ctx trial vin load st).1.events = st.events ++
          ([Event.eloadInputOff, Event.sleepFor ctx.p.load_wait] ++
           [Event.psMeasure ctx.PSinst, Event.dmmMeasure, Event.eloadMeasure]) ∧
        (sampleIter ctx trial vin load st).1.eloadOn = false) ∧
    (load ≠ 0 → st.eloadOn = false →
        (sampleIter ctx trial vin load st).1.events = st.events ++
          ([Event.eloadSetCurrent load (1 / 5), Event.eloadInputOn,
            Event.eloadSetCurrent load ctx.p.load_wait] ++
           [Event.psMeasure ctx.PSinst, Event.dmmMeasure, Event.eloadMeasure]) ∧
        (sampleIter ctx trial vin load st).1.eloadOn = true) ∧
    (load ≠ 0 → st.eloadOn = true →
        (sampleIter ctx trial vin load st).1.events = st.events ++
          ([Event.eloadSetCurrent load ctx.p.load_wait] ++
           [Event.psMeasure ctx.PSinst, Event.dmmMeasure, Event.eloadMeasure]) ∧
        (sampleIter ctx trial vin load st).1.eloadOn = true) := by
  unfold sampleIter
  rw [if_neg hkb]
  simp only [loadStep_data, loadStep_trialsDone]
  rw [if_neg (by simpa [inPowerAt] using hnz)]
  refine ⟨?_, ?_, ?_⟩
  · intro h0
    constructor
    · show (loadStep ctx.p load st).events ++ _ = _
      unfold loadStep
      rw [if_pos h0]
      simp [List.append_assoc]
    · show (loadStep ctx.p load st).eloadOn = false
      unfold loadStep
      rw [if_pos h0]
  · intro h0 hoff
    constructor
    · show (loadStep ctx.p load st).events ++ _ = _
      unfold loadStep
      rw [if_neg h0, hoff, if_neg (Bool.false_ne_true)]
      simp [List.append_assoc]
    · show (loadStep ctx.p load st).eloadOn = true
      unfold loadStep
      rw [if_neg h0, hoff, if_neg (Bool.false_ne_true)]
  · intro h0 hon
    constructor
    · show (loadStep ctx.p load st).events ++ _ = _
      unfold loadStep
      rw [if_neg h0, hon, if_pos rfl]
      simp [List.append_assoc]
    · show (loadStep ctx.p load st).eloadOn = true
      unfold loadStep
      rw [if_neg h0, hon, if_pos rfl]

/-- Witness for C7: a non-zero load with the E-load input disabled
programs the current, enables the input, then programs it again. -/
theorem sampleIter_load_handling_witness :
    (sampleIter ctxW 0 12 2 stW).1.events = stW.events ++
      ([Event.eloadSetCurrent 2 (1 / 5), Event.eloadInputOn,
        Event.eloadSetCurrent 2 ctxW.p.load_wait] ++
       [Event.psMeasure ctxW.PSinst, Event.dmmMeasure, Event.eloadMeasure]) ∧
    (sampleIter ctxW 0 12 2 stW).1.eloadOn = true :=
  (sampleIter_load_handling ctxW 0 12 2 stW (by simp [ctxW])
      (by show (12 : ℚ) * (5 / 4 - 1 / 20) ≠ 0; norm_num)).2.1
    (by norm_num) rfl

/-- Claim C5: channel validation of the triple-channel supply succeeds
exactly for channels 1..3; outside that range both channel-string
helpers fail with the range error before any command string is built,
and inside it they produce the designator that is interpolated into the
command. -/
theorem rigol_channel_validation (n : Int) :
    ((∃ s, RigolDP832A.chStr n = Except.ok s) ↔ 1 ≤ n ∧ n ≤ 3) ∧
    (1 ≤ n ∧ n ≤ 3 →
        RigolDP832A.chStr n = Except.ok ("CH" ++ toString n) ∧
        RigolDP832A.chanStr n = Except.ok (toString n) ∧
        RigolDP832A.outputStateQueryCmd n =
          Except.ok (":OUTPut:STATe? " ++ ("CH" ++ toString n))) ∧
    (¬(1 ≤ n ∧ n ≤ 3) →
        RigolDP832A.chStr n = Except.error "Invalid channel number" ∧
        RigolDP832A.chanStr n = Except.error "Invalid channel number" ∧
        RigolDP832A.outputStateQueryCmd n =
          Except.error "Invalid channel number") := by
  by_cases h : 1 ≤ n ∧ n ≤ 3
  · have hcond : ¬(n < 1 ∨ n > RigolDP832A.max_chan) := by
      rw [show RigolDP832A.max_chan = 3 from rfl]
      omega
    refine ⟨⟨fun _ => h, fun _ => ?_⟩, fun _ => ⟨?_, ?_, ?_⟩,
      fun hcon => absurd h hcon⟩
    · exact ⟨"CH" ++ toString n, by simp [RigolDP832A.chStr, hcond]⟩
    · simp [RigolDP832A.chStr, hcond]
    · simp [RigolDP832A.chanStr, hcond]
    · simp [RigolDP832A.outputStateQueryCmd, RigolDP832A.chStr, hcond,
        Except.map]
  · have hcond : n < 1 ∨ n > RigolDP832A.max_chan := by
      rw [show RigolDP832A.max_chan = 3 from rfl]
      omega
    refine ⟨⟨?_, fun hc => absurd hc h⟩, fun hc => absurd hc h,
      fun _ => ⟨?_, ?_, ?_⟩⟩
    · rintro ⟨s, hs⟩
      simp only [RigolDP832A.chStr, if_pos hcond] at hs
      exact Except.noConfusion hs
    · simp [RigolDP832A.chStr, hcond]
    · simp [RigolDP832A.chanStr, hcond]
    · simp [RigolDP832A.outputStateQueryCmd, RigolDP832A.chStr, hcond,
        Except.map]

/-- Witness for C5: channel 2 is accepted and produces the designator,
channels 0 and 4 are rejected. -/
theorem rigol_channel_validation_witness :
    RigolDP832A.chStr 2 = Except.ok ("CH" ++ toString (2 : Int)) ∧
    RigolDP832A.chStr 0 = Except.error "Invalid channel number" ∧
    RigolDP832A.chStr 4 = Except.error "Invalid channel number" :=
  ⟨((rigol_channel_validation 2).2.1 (by norm_num)).1,
   ((rigol_channel_validation 0).2.2 (by norm_num)).1,
   ((rigol_channel_validation 4).2.2 (by norm_num)).1⟩

/-- Claim C6: `setMeasureFunction` with an unknown key, and
`setAutoZero` with an unknown or not-allow-listed function (or with the
function omitted while none is stored), raise before any command is
issued; a successful `setMeasureFunction` records its key as the
currently selected function, and `setAutoZero` without a function
argument falls back to the stored selection. -/
theorem keithley_function_validation (st : DMMState) (f : String) (b : Bool)
    (ch : Option Nat) :
    (Keithley6500.functionsGet f = none →
        Keithley6500.setMeasureFunction st f ch =
          Except.error ("setMeasureFunction: unknown function " ++ f) ∧
        Keithley6500.setAutoZero st b (some f) ch =
          Except.error ("setAutoZero: unknown function " ++ f)) ∧
    (∀ cmd, Keithley6500.functionsGet f = some cmd →
        ∃ st1 cmds,
          Keithley6500.setMeasureFunction st f ch = Except.ok (st1, cmds) ∧
          st1.functionStr = some f) ∧
    (∀ cmd, Keithley6500.functionsGet f = some cmd →
        cmd ∉ Keithley6500.allowedAutoZero →
        Keithley6500.setAutoZero st b (some f) ch =
          Except.error
            ("setAutoZero: Changing AutoZero is not valid for function " ++ f)) ∧
    (Keithley6500.setAutoZero st b none ch =
      Keithley6500.setAutoZero st b st.functionStr ch) := by
  refine ⟨?_, ?_, ?_, ?_⟩
  · intro h
    constructor
    · simp [Keithley6500.setMeasureFunction, h]
    · simp [Keithley6500.setAutoZero, h]
  · intro cmd hcd
    rcases ch with _ | c
    · refine ⟨{ functionStr := some f, channel := st.channel },
        ["SENS" ++ toString st.channel ++ ":FUNC:ON \"" ++ cmd ++ "\""],
        ?_, rfl⟩
      simp [Keithley6500.setMeasureFunction, hcd]
    · refine ⟨{ functionStr := some f, channel := c },
        ["SENS" ++ toString c ++ ":FUNC:ON \"" ++ cmd ++ "\""],
        ?_, rfl⟩
      simp [Keithley6500.setMeasureFunction, hcd]
  · intro cmd hcd hnotin
    simp [Keithley6500.setAutoZero, hcd, hnotin]
  · rcases hfs : st.functionStr with _ | g <;>
      simp [Keithley6500.setAutoZero, hfs]

/-- Witness for C6: `setMeasureFunction("Bogus")` fails before any
command, and AutoZero cannot be set for Capacitance (known function,
not on the allow-list). -/
theorem keithley_function_validation_witness :
    Keithley6500.setMeasureFunction Keithley6500.initState "Bogus" none =
      Except.error ("setMeasureFunction: unknown function " ++ "Bogus") ∧
    Keithley6500.setAutoZero Keithley6500.initState true (some "Capacitance")
        none =
      Except.error
        ("setAutoZero: Changing AutoZero is not valid for function "
          ++ "Capacitance") :=
  ⟨((keithley_function_validation Keithley6500.initState "Bogus" true none).1
      rfl).1,
   (keithley_function_validation Keithley6500.initState "Capacitance" true
      none).2.2.1 "CAP" rfl (by decide)⟩

/-- Counterexample for C8 as stated: `isOutputOn` answers `false`, not
the input-enablement state — `isInputOn` answers `true`. -/
theorem keithley_isOutputOn_cex :
    Keithley6500.isOutputOn none = false ∧
    Keithley6500.isInputOn none = true ∧
    Keithley6500.isOutputOn none ≠ Keithley6500.isInputOn none := by decide

/-- Claim C8 as amended: on the multimeter, `isOutputOn` is a benign
constant no-op returning `false` (the device has no output; it does not
mirror the always-on input state), `isInputOn` reports the input as
always on (`true`), and `outputOn`/`outputOff` are silent no-ops that
never raise. -/
theorem keithley_output_noops (ch : Option Nat) (w : Option ℚ) :
    Keithley6500.isOutputOn ch = false ∧
    Keithley6500.isInputOn ch = true ∧
    Keithley6500.outputOn ch w = Except.ok () ∧
    Keithley6500.outputOff ch w = Except.ok () :=
  ⟨rfl, rfl, rfl, rfl⟩

theorem waitLoop_not_one (responses : Nat → List Char)
    (hall : ∀ j, ∃ c cs, responses j = c :: cs ∧ c ≠ '1') :
    ∀ fuel i, RigolDP832A.waitLoop responses fuel i = WaitOutcome.running := by
  intro fuel
  induction fuel with
  | zero => intro i; rfl
  | succ fuel ih =>
    intro i
    obtain ⟨c, cs, hj, hc⟩ := hall i
    simp only [RigolDP832A.waitLoop, hj]
    rw [if_neg hc]
    exact ih (i + 1)

theorem waitLoop_done_at (responses : Nat → List Char) :
    ∀ (m i fuel : Nat),
      (∀ j, i ≤ j → j < i + m → ∃ c cs, responses j = c :: cs ∧ c ≠ '1') →
      (∃ cs, responses (i + m) = '1' :: cs) →
      m < fuel →
      RigolDP832A.waitLoop responses fuel i = WaitOutcome.done (i + m + 1) := by
  intro m
  induction m with
  | zero =>
    intro i fuel _ hone hf
    obtain ⟨cs, hcs⟩ := hone
    rcases fuel with _ | fuel
    · omega
    · rw [Nat.add_zero] at hcs
      simp only [RigolDP832A.waitLoop, hcs]
      simp
  | succ m ih =>
    intro i fuel hpre hone hf
    rcases fuel with _ | fuel
    · omega
    obtain ⟨c, cs, hj, hc⟩ := hpre i le_rfl (by omega)
    simp only [RigolDP832A.waitLoop, hj]
    rw [if_neg hc]
    have hrec := ih (i + 1) fuel
      (fun j h1 h2 => hpre j (by omega) (by omega))
      (by
        obtain ⟨cs2, h2⟩ := hone
        exact ⟨cs2, by rw [show i + 1 + m = i + (m + 1) from by omega]; exact h2⟩)
      (by omega)
    rw [hrec]
    congr 1
    omega

/-- Claim C9: the `_wait` poll re-issues the operation-complete query
until a response whose first character is `1` arrives: if the first such
response is the (k+1)-th one, the loop returns after exactly k+1 queries
(one per earlier non-`1` response plus the final one) regardless of the
available fuel, and if no response ever starts with `1` the loop never
returns — it runs out of any finite fuel, with no retry bound and no
timeout. -/
theorem opcWait_poll (responses : Nat → List Char) (k : Nat) :
    ((∀ j, j < k → ∃ c cs, responses j = c :: cs ∧ c ≠ '1') →
        (∃ cs, responses k = '1' :: cs) →
        ∀ fuel, k < fuel →
          RigolDP832A.opcWait responses fuel = WaitOutcome.done (k + 1)) ∧
    ((∀ j, ∃ c cs, responses j = c :: cs ∧ c ≠ '1') →
        ∀ fuel, RigolDP832A.opcWait responses fuel = WaitOutcome.running) := by
  constructor
  · intro hpre hone fuel hf
    have hdone := waitLoop_done_at responses k 0 fuel
      (fun j _ h2 => hpre j (by omega))
      (by rw [Nat.zero_add]; exact hone) hf
    rw [Nat.zero_add] at hdone
    exact hdone
  · intro hall fuel
    exact waitLoop_not_one responses hall fuel 0

/-- The response sequence used by the C9 witness: two polls answer `0`,
the third answers `1`. -/
def respW : Nat → List Char := fun j => if j < 2 then ['0'] else ['1']

/-- Witness for C9: with completion signalled on the third response the
poll returns after exactly 3 queries; with fuel 5 or 50 the result is
the same. -/
theorem opcWait_poll_witness :
    RigolDP832A.opcWait respW 5 = WaitOutcome.done 3 ∧
    RigolDP832A.opcWait respW 50 = WaitOutcome.done 3 := by
  have h1 := (opcWait_poll respW 2).1
    (by
      intro j hj
      refine ⟨'0', [], ?_, by decide⟩
      simp [respW, hj])
    ⟨[], by simp [respW]⟩
  exact ⟨h1 5 (by omega), h1 50 (by omega)⟩

end Dcps
